import Mathlib

/-!
Verification of the ginx rate-limiting subsystem (src/ratelimit.go) against its
natural-language specification.  The Go code is shallowly embedded: time is
modelled as rational seconds since the epoch (Go zero time is 0), the token
bucket of golang.org/x/time/rate is translated field by field, the in-memory
store is an association list with Go map lookup semantics, and each middleware
is a sequential state-passing step function producing the observable HTTP
outcome (whether next ran, status, headers, body fields).  Limiters live in a
heap indexed by Nat so pointer identity is observable.
-/

unseal Rat.add Rat.mul Rat.sub Rat.inv

namespace Ginx

/-- Go rate.InfDuration = math.MaxInt64 nanoseconds, expressed in seconds. -/
def infDuration : ℚ := (9223372036854775807 : ℚ) / 1000000000

/-- Go conversion float64 to int64 truncates toward zero. -/
def goTrunc (q : ℚ) : Int := if 0 ≤ q then ⌊q⌋ else ⌈q⌉

/-- time.Time.Unix(): whole seconds since the epoch (nsec is in [0, 1e9), so
this is the floor). -/
def goUnix (t : ℚ) : Int := ⌊t⌋

/-- golang.org/x/time/rate Limiter state.  rate.Limit Inf cannot arise in this
package: every limiter is built by rate.NewLimiter(rate.Limit(rps), burst) from
an int rps, so the limit == Inf branches of the library are unreachable and
omitted.  The Go zero time in the fields last and lastEvent is modelled as 0. -/
structure Limiter where
  limit : ℚ
  burst : Int
  tokens : ℚ
  last : ℚ
  lastEvent : ℚ
deriving DecidableEq

/-- rate.NewLimiter(r, b): only limit and burst are set. -/
def newLimiter (r : ℚ) (b : Int) : Limiter := ⟨r, b, 0, 0, 0⟩

/-- rate.Limit.tokensFromDuration. -/
def tokensFromDuration (limit : ℚ) (d : ℚ) : ℚ :=
  if limit ≤ 0 then 0 else d * limit

/-- rate.Limit.durationFromTokens: caps at InfDuration to avoid overflow. -/
def durationFromTokens (limit : ℚ) (tokens : ℚ) : ℚ :=
  if limit ≤ 0 then infDuration
  else if tokens / limit > infDuration then infDuration else tokens / limit

/-- Limiter.advance: the token count at time t, capped at burst (the state
itself is not written; reserveN stores the result when it commits). -/
def Limiter.advance (lim : Limiter) (t : ℚ) : ℚ :=
  let last := if t < lim.last then t else lim.last
  min (lim.tokens + tokensFromDuration lim.limit (t - last)) (lim.burst : ℚ)

/-- Limiter.Tokens() / TokensAt: a non-mutating observation. -/
def Limiter.tokensAt (lim : Limiter) (t : ℚ) : ℚ := lim.advance t

/-- The observable fields of rate.Reservation (the lim pointer is threaded
explicitly). -/
structure Reservation where
  ok : Bool
  tokens : Int
  timeToAct : ℚ
  limit : ℚ
deriving DecidableEq

/-- Limiter.reserveN(t, n, maxFutureReserve): the core decision procedure of
the bucket.  In the limit == 0 branch the library consumes from burst itself;
in the general branch state is only committed when the reservation is ok. -/
def Limiter.reserveN (lim : Limiter) (t : ℚ) (n : Int) (maxFutureReserve : ℚ) :
    Reservation × Limiter :=
  if lim.limit = 0 then
    if n ≤ lim.burst then
      (⟨true, lim.burst - n, t, 0⟩, { lim with burst := lim.burst - n })
    else
      (⟨false, lim.burst, t, 0⟩, lim)
  else
    let tokens := lim.advance t - (n : ℚ)
    let waitDuration := if tokens < 0 then durationFromTokens lim.limit (-tokens) else 0
    if n ≤ lim.burst ∧ waitDuration ≤ maxFutureReserve then
      (⟨true, n, t + waitDuration, lim.limit⟩,
        { lim with tokens := tokens, last := t, lastEvent := t + waitDuration })
    else
      (⟨false, 0, 0, lim.limit⟩, lim)

/-- Limiter.Allow() = AllowN(now, 1) = reserveN(now, 1, 0).ok. -/
def Limiter.allow (lim : Limiter) (t : ℚ) : Bool × Limiter :=
  let p := lim.reserveN t 1 0
  (p.1.ok, p.2)

/-- Reservation.DelayFrom(t): InfDuration if not ok, otherwise the wait until
timeToAct, clamped below at 0. -/
def Reservation.delayFrom (r : Reservation) (t : ℚ) : ℚ :=
  if r.ok = false then infDuration
  else if r.timeToAct - t < 0 then 0 else r.timeToAct - t

/-- Reservation.CancelAt(t): restores the reserved tokens that were not yet
spent by later events (the limit == Inf early return is unreachable here). -/
def Reservation.cancelAt (r : Reservation) (lim : Limiter) (t : ℚ) : Limiter :=
  if r.ok = false then lim
  else if r.tokens = 0 ∨ r.timeToAct < t then lim
  else
    let restoreTokens := (r.tokens : ℚ) - tokensFromDuration r.limit (lim.lastEvent - r.timeToAct)
    if restoreTokens ≤ 0 then lim
    else
      let tokens := min (lim.advance t + restoreTokens) (lim.burst : ℚ)
      let lastEvent :=
        if r.timeToAct = lim.lastEvent then
          let prevEvent := r.timeToAct + durationFromTokens r.limit (-(r.tokens : ℚ))
          if ¬ prevEvent < t then prevEvent else lim.lastEvent
        else lim.lastEvent
      { lim with last := t, tokens := tokens, lastEvent := lastEvent }

/-- Limiter.Wait with a context deadline of now + timeout: the burst precheck,
the already-expired-context precheck, then reserveN bounded by the remaining
wait budget.  The timer sleep is collapsed: a granted reservation delays at
most the deadline, so in the sequential model the request is admitted. -/
def Limiter.waitAdmit (lim : Limiter) (now timeout : ℚ) : Bool × Limiter :=
  if 1 > lim.burst then (false, lim)
  else if timeout ≤ 0 then (false, lim)
  else
    let p := lim.reserveN now 1 timeout
    (p.1.ok, p.2)

/-- Go map lookup, on an association-list model. -/
def alookup {α : Type} (l : List (String × α)) (k : String) : Option α :=
  (l.find? (fun p => p.1 == k)).map Prod.snd

/-- Go map assignment m[k] = v (lookup-equivalent representation). -/
def aset {α : Type} (l : List (String × α)) (k : String) (v : α) :
    List (String × α) :=
  (k, v) :: l.filter (fun p => p.1 != k)

/-- Go delete(m, k). -/
def aerase {α : Type} (l : List (String × α)) (k : String) : List (String × α) :=
  l.filter (fun p => p.1 != k)

/-- Well-formedness of a modelled Go map: keys are pairwise distinct. -/
def wfA {α : Type} (l : List (String × α)) : Prop := (l.map Prod.fst).Nodup

/-- MemoryLimiterStore: key to limiter (heap index), key to last access time,
idle threshold, cleanup tick interval, and whether the done channel has been
closed. -/
structure MemoryLimiterStore where
  limiters : List (String × Nat)
  lastAccess : List (String × ℚ)
  maxIdle : ℚ
  tickerInterval : ℚ
  doneClosed : Bool
deriving DecidableEq

/-- NewMemoryLimiterStore: non-positive maxIdle defaults to 5 minutes (300 s);
the cleanup goroutine ticks every maxIdle/2. -/
def newMemoryLimiterStore (maxIdle : ℚ) : MemoryLimiterStore :=
  let mi := if maxIdle ≤ 0 then 300 else maxIdle
  ⟨[], [], mi, mi / 2, false⟩

/-- MemoryLimiterStore.Get: refreshes last access on hit. -/
def MemoryLimiterStore.get (s : MemoryLimiterStore) (key : String) (now : ℚ) :
    Option Nat × MemoryLimiterStore :=
  match alookup s.limiters key with
  | some id => (some id, { s with lastAccess := aset s.lastAccess key now })
  | none => (none, s)

/-- MemoryLimiterStore.Set: stores the limiter and records the access time. -/
def MemoryLimiterStore.set (s : MemoryLimiterStore) (key : String) (id : Nat)
    (now : ℚ) : MemoryLimiterStore :=
  { s with limiters := aset s.limiters key id, lastAccess := aset s.lastAccess key now }

/-- MemoryLimiterStore.Delete. -/
def MemoryLimiterStore.delete (s : MemoryLimiterStore) (key : String) :
    MemoryLimiterStore :=
  { s with limiters := aerase s.limiters key, lastAccess := aerase s.lastAccess key }

/-- MemoryLimiterStore.Clear. -/
def MemoryLimiterStore.clear (s : MemoryLimiterStore) : MemoryLimiterStore :=
  { s with limiters := [], lastAccess := [] }

/-- MemoryLimiterStore.Close runs close(s.done) then ticker.Stop().  Closing an
already-closed Go channel panics, modelled as none. -/
def MemoryLimiterStore.close (s : MemoryLimiterStore) : Option MemoryLimiterStore :=
  if s.doneClosed then none else some { s with doneClosed := true }

/-- One pass of the cleanup goroutine at tick time now: every key whose last
access is older than maxIdle is deleted from both maps. -/
def MemoryLimiterStore.cleanupPass (s : MemoryLimiterStore) (now : ℚ) :
    MemoryLimiterStore :=
  { s with
    limiters := s.limiters.filter (fun p =>
      match alookup s.lastAccess p.1 with
      | some la => !decide (now - la > s.maxIdle)
      | none => true),
    lastAccess := s.lastAccess.filter (fun p => !decide (now - p.2 > s.maxIdle)) }

/-- The request-context surface the key strategies read: origin address, route
path, and the optional authenticated user id (a non-string user_id value falls
back to the address, folded into none). -/
structure GinContext where
  clientIP : String
  path : String
  userID : Option String
deriving DecidableEq

/-- defaultKeyFunc: the client IP. -/
def defaultKeyFunc (c : GinContext) : String := c.clientIP

/-- KeyByUserID: "user:" ++ id when authenticated, else the client IP. -/
def keyByUserID (c : GinContext) : String :=
  match c.userID with
  | some id => "user:" ++ id
  | none => c.clientIP

/-- KeyByPath: "IP:path". -/
def keyByPath (c : GinContext) : String := c.clientIP ++ ":" ++ c.path

/-- RateLimiter configuration (the store and its limiters are threaded
separately in RLState). -/
structure RateLimiterCfg where
  rps : Int
  burst : Int
  keyFunc : Option (GinContext → String)
  skipFunc : Option (GinContext → Bool)
  headers : Bool

/-- NewRateLimiter(rps, burst): default key function, no skip, headers on. -/
def newRateLimiter (rps burst : Int) : RateLimiterCfg :=
  ⟨rps, burst, some defaultKeyFunc, none, true⟩

/-- The heap of live rate.Limiter objects plus the store mapping keys to heap
indices, so that pointer identity and in-place mutation are observable. -/
structure RLState where
  store : MemoryLimiterStore
  heap : List Limiter
deriving DecidableEq

/-- The zero rate.Limiter (Go zero value), used as the out-of-range default of
heap reads. -/
def dfltLimiter : Limiter := ⟨0, 0, 0, 0, 0⟩

/-- The state of a freshly built RateLimiter: NewMemoryLimiterStore(0) and no
limiters. -/
def initState : RLState := ⟨newMemoryLimiterStore 0, []⟩

/-- RateLimiter.getLimiter: fetch the key's limiter, or create one with the
configured rps/burst and Set it. -/
def getLimiter (cfg : RateLimiterCfg) (st : RLState) (key : String) (now : ℚ) :
    Nat × RLState :=
  match st.store.get key now with
  | (some id, store1) => (id, { st with store := store1 })
  | (none, store1) =>
    let id := st.heap.length
    (id, ⟨store1.set key id now, st.heap ++ [newLimiter (cfg.rps : ℚ) cfg.burst]⟩)

/-- The observable outcome of one middleware invocation: whether next ran, the
abort status, the headers set by the middleware (values are the formatted
integers), and the JSON body fields of a denial. -/
structure MwOutcome where
  nextCalled : Bool
  status : Option Nat
  headers : List (String × Int)
  bodyError : Option String
  bodyRetryAfter : Option Int
  bodyTimeout : Option ℚ
deriving DecidableEq

/-- The outcome of a pass-through: next runs, nothing set by this middleware. -/
def nextOutcome : MwOutcome := ⟨true, none, [], none, none, none⟩

/-- A default outcome value for out-of-range list reads in statements. -/
def dfltOutcome : MwOutcome := ⟨false, none, [], none, none, none⟩

/-- RateLimiter.handleRateLimit: Reserve, and if the reservation is not OK
abort with the minimal body; otherwise preview the delay, cancel, and abort
with Retry-After and retry_after set to int64(delay.Seconds()) + 1. -/
def handleRateLimit (cfg : RateLimiterCfg) (lim : Limiter) (now : ℚ) :
    MwOutcome × Limiter :=
  let p := lim.reserveN now 1 infDuration
  if p.1.ok = false then
    (⟨false, some 429, [], some "rate limit exceeded", none, none⟩, p.2)
  else
    let delay := p.1.delayFrom now
    let lim2 := p.1.cancelAt p.2 now
    let retry := goTrunc delay + 1
    (⟨false, some 429,
      if cfg.headers then [("Retry-After", retry)] else [],
      some "rate limit exceeded", some retry, none⟩, lim2)

/-- RateLimiter.setHeaders: the X-RateLimit-* headers computed from the
bucket's current token count. -/
def setHeaders (cfg : RateLimiterCfg) (lim : Limiter) (now : ℚ) :
    List (String × Int) :=
  let remaining := goTrunc (lim.tokensAt now)
  let tokensNeeded := cfg.burst - remaining
  let reset :=
    if tokensNeeded ≤ 0 then goUnix (now + 1)
    else goUnix (now + (tokensNeeded : ℚ) / (cfg.rps : ℚ))
  [("X-RateLimit-Limit", cfg.rps), ("X-RateLimit-Remaining", remaining),
    ("X-RateLimit-Reset", reset)]

/-- The body of RateLimiter.Middleware after the skip check. -/
def middlewareCore (cfg : RateLimiterCfg) (st : RLState) (c : GinContext)
    (now : ℚ) : MwOutcome × RLState :=
  let key := (cfg.keyFunc.getD defaultKeyFunc) c
  let q := getLimiter cfg st key now
  let st1 := q.2
  let lim := st1.heap.getD q.1 dfltLimiter
  let a := lim.allow now
  if a.1 = false then
    let h := handleRateLimit cfg a.2 now
    (h.1, { st1 with heap := st1.heap.set q.1 h.2 })
  else
    ({ nextOutcome with headers := if cfg.headers then setHeaders cfg a.2 now else [] },
      { st1 with heap := st1.heap.set q.1 a.2 })

/-- RateLimiter.Middleware: one sequential invocation at time now. -/
def middlewareStep (cfg : RateLimiterCfg) (st : RLState) (c : GinContext)
    (now : ℚ) : MwOutcome × RLState :=
  match cfg.skipFunc with
  | some skip => if skip c then (nextOutcome, st) else middlewareCore cfg st c now
  | none => middlewareCore cfg st c now

/-- The body of RateLimitWithWait's handler after the skip check: Wait with a
context deadline of now + timeout, denying with the configured timeout in the
body on failure. -/
def rateLimitWithWaitCore (cfg : RateLimiterCfg) (timeout : ℚ) (st : RLState)
    (c : GinContext) (now : ℚ) : MwOutcome × RLState :=
  let key := (cfg.keyFunc.getD defaultKeyFunc) c
  let q := getLimiter cfg st key now
  let st1 := q.2
  let lim := st1.heap.getD q.1 dfltLimiter
  let w := lim.waitAdmit now timeout
  let st2 := { st1 with heap := st1.heap.set q.1 w.2 }
  if w.1 = false then
    (⟨false, some 429, [], some "rate limit exceeded", none, some timeout⟩, st2)
  else
    (nextOutcome, st2)

/-- RateLimitWithWait(rps, burst, timeout): one sequential invocation. -/
def rateLimitWithWaitStep (cfg : RateLimiterCfg) (timeout : ℚ) (st : RLState)
    (c : GinContext) (now : ℚ) : MwOutcome × RLState :=
  match cfg.skipFunc with
  | some skip =>
    if skip c then (nextOutcome, st) else rateLimitWithWaitCore cfg timeout st c now
  | none => rateLimitWithWaitCore cfg timeout st c now

/-- DynamicRateLimiter configuration: the per-key limit resolver. -/
structure DynamicRateLimiterCfg where
  resolver : String → Int × Int
  keyFunc : GinContext → String
  skipFunc : Option (GinContext → Bool)
  headers : Bool

/-- NewDynamicRateLimiter: user-id keys, no skip, headers flag on. -/
def newDynamicRateLimiter (resolver : String → Int × Int) :
    DynamicRateLimiterCfg :=
  ⟨resolver, keyByUserID, none, true⟩

/-- DynamicRateLimiter.getRateLimiter: the resolver is consulted only when the
key has no stored limiter yet. -/
def getRateLimiter (cfg : DynamicRateLimiterCfg) (st : RLState) (key : String)
    (now : ℚ) : Nat × RLState :=
  match st.store.get key now with
  | (some id, store1) => (id, { st with store := store1 })
  | (none, store1) =>
    let rb := cfg.resolver key
    let id := st.heap.length
    (id, ⟨store1.set key id now, st.heap ++ [newLimiter (rb.1 : ℚ) rb.2]⟩)

/-- The body of DynamicRateLimiter.Middleware after the skip check. -/
def dynamicCore (cfg : DynamicRateLimiterCfg) (st : RLState) (c : GinContext)
    (now : ℚ) : MwOutcome × RLState :=
  let key := cfg.keyFunc c
  let q := getRateLimiter cfg st key now
  let st1 := q.2
  let lim := st1.heap.getD q.1 dfltLimiter
  let a := lim.allow now
  let st2 := { st1 with heap := st1.heap.set q.1 a.2 }
  if a.1 = false then
    (⟨false, some 429, [], some "rate limit exceeded", none, none⟩, st2)
  else
    (nextOutcome, st2)

/-- DynamicRateLimiter.Middleware: one sequential invocation at time now. -/
def dynamicMiddlewareStep (cfg : DynamicRateLimiterCfg) (st : RLState)
    (c : GinContext) (now : ℚ) : MwOutcome × RLState :=
  match cfg.skipFunc with
  | some skip => if skip c then (nextOutcome, st) else dynamicCore cfg st c now
  | none => dynamicCore cfg st c now

/-- Run a sequence of (request, arrival time) pairs through the middleware,
returning the outcomes in order. -/
def runSeq (cfg : RateLimiterCfg) (reqs : List (GinContext × ℚ)) (st : RLState) :
    List MwOutcome × RLState :=
  match reqs with
  | [] => ([], st)
  | r :: rest =>
    let p := middlewareStep cfg st r.1 r.2
    let q := runSeq cfg rest p.2
    (p.1 :: q.1, q.2)

/-- The delay handleRateLimit previews via Reserve + Delay + Cancel (the
non-consuming PreviewDelay of the spec). -/
def previewDelay (lim : Limiter) (now : ℚ) : ℚ :=
  ((lim.reserveN now 1 infDuration).1).delayFrom now

/-- Quota headers as the spec words them (section 4.4 step 7): limit is the
configured rate, remaining is max(0, floor(AvailableTokens())), reset is now
plus (capacity - remaining)/rate seconds, or now plus one second when the
bucket is already full (remaining at capacity).  Written from the spec for the
refinement comparison in C7. -/
def specQuotaHeaders (rps burst : Int) (avail : ℚ) (now : ℚ) :
    List (String × Int) :=
  let remaining : Int := max 0 ⌊avail⌋
  let reset :=
    if burst ≤ remaining then goUnix (now + 1)
    else goUnix (now + ((burst - remaining : Int) : ℚ) / (rps : ℚ))
  [("X-RateLimit-Limit", rps), ("X-RateLimit-Remaining", remaining),
    ("X-RateLimit-Reset", reset)]

/-- The minimal denial outcome of the Reservation-not-OK fallback path: a 429
with the bare error body and no headers. -/
def denyMin : MwOutcome := ⟨false, some 429, [], some "rate limit exceeded", none, none⟩

/-- A concrete request used in counterexamples and witnesses. -/
def ctx0 : GinContext := ⟨"1.2.3.4", "/", none⟩

/-- A bucket of rate 1, burst 1, with zero tokens at time 0: the state of a
fresh rps=1, burst=1 limiter right after its first admitted request. -/
def lim0 : Limiter := ⟨1, 1, 0, 0, 0⟩

/-- A state whose store already holds lim0 under the key of ctx0. -/
def st0 : RLState := ⟨⟨[("1.2.3.4", 0)], [("1.2.3.4", 0)], 300, 150, false⟩, [lim0]⟩

/-- A dynamic limiter whose resolver grants (100, 200) to every key. -/
def dcfg0 : DynamicRateLimiterCfg := newDynamicRateLimiter (fun _ => (100, 200))

/-- A state whose store holds, for key "user:u", a bucket created earlier with
rate 1 and capacity 2 that has accumulated 2 tokens. -/
def st4 : RLState := ⟨⟨[("user:u", 0)], [("user:u", 0)], 300, 150, false⟩, [⟨1, 2, 2, 0, 0⟩]⟩

/-- A store holding one entry, key "k" last accessed at time 0. -/
def stW : MemoryLimiterStore := ⟨[("k", 0)], [("k", 0)], 300, 150, false⟩

/-- A rate limiter whose skip predicate admits every request. -/
def skipAllCfg : RateLimiterCfg :=
  { newRateLimiter 5 5 with skipFunc := some (fun _ => true) }

/-- A dynamic rate limiter whose skip predicate admits every request. -/
def dynSkipCfg : DynamicRateLimiterCfg :=
  { newDynamicRateLimiter (fun _ => (10, 20)) with skipFunc := some (fun _ => true) }

theorem getD_mem_or_default {α : Type} (l : List α) (i : Nat) (d : α) :
    l.getD i d ∈ l ∨ l.getD i d = d := by
  induction l generalizing i with
  | nil => right; rfl
  | cons a as ih =>
    cases i with
    | zero => left; exact List.mem_cons_self a as
    | succ n =>
      rcases ih n with h | h
      · left; exact List.mem_cons_of_mem a h
      · right; exact h

theorem getD_of_length_le {α : Type} (l : List α) (i : Nat) (d : α)
    (h : l.length ≤ i) : l.getD i d = d := by
  induction l generalizing i with
  | nil => rfl
  | cons a as ih =>
    cases i with
    | zero => simp at h
    | succ n =>
      simp only [List.length_cons] at h
      exact ih n (by omega)

theorem alookup_nil {α : Type} (k : String) :
    alookup ([] : List (String × α)) k = none := rfl

theorem alookup_cons {α : Type} (p : String × α) (l : List (String × α)) (k : String) :
    alookup (p :: l) k = if p.1 == k then some p.2 else alookup l k := by
  cases h : p.1 == k <;> simp [alookup, List.find?_cons, h]

theorem alookup_aset_self {α : Type} (l : List (String × α)) (k : String) (v : α) :
    alookup (aset l k v) k = some v := by
  simp [aset, alookup_cons]

/-- C10: two consecutive getLimiter calls for the same key return the same
limiter index; the first creates at most one limiter, and the second neither
touches the heap nor the limiters map (no Set, no replacement). -/
theorem C10_getLimiter_idempotent (cfg : RateLimiterCfg) (st : RLState)
    (key : String) (t1 t2 : ℚ) :
    (getLimiter cfg (getLimiter cfg st key t1).2 key t2).1 =
      (getLimiter cfg st key t1).1 ∧
    (getLimiter cfg (getLimiter cfg st key t1).2 key t2).2.heap =
      (getLimiter cfg st key t1).2.heap ∧
    (getLimiter cfg (getLimiter cfg st key t1).2 key t2).2.store.limiters =
      (getLimiter cfg st key t1).2.store.limiters ∧
    (getLimiter cfg st key t1).2.heap.length ≤ st.heap.length + 1 := by
  cases h : alookup st.store.limiters key with
  | some id =>
    simp [getLimiter, MemoryLimiterStore.get, h]
  | none =>
    simp [getLimiter, MemoryLimiterStore.get, MemoryLimiterStore.set, h,
      alookup_aset_self]

/-- C5 counterexample: on a freshly constructed MemoryLimiterStore the first
Close succeeds but the second Close closes an already-closed channel and
panics (modelled as none), refuting that later calls are safe no-ops. -/
theorem C5_counterexample :
    ((newMemoryLimiterStore 60).close.bind MemoryLimiterStore.close) = none ∧
    (newMemoryLimiterStore 60).close.isSome = true := by
  constructor
  · rfl
  · rfl

/-- C5 (amended): the first Close of a MemoryLimiterStore succeeds, but any
second Close panics by closing the already-closed done channel; Close is not
safe to call more than once. -/
theorem C5_close_not_idempotent (s : MemoryLimiterStore)
    (h : s.doneClosed = false) :
    s.close = some { s with doneClosed := true } ∧
    ({ s with doneClosed := true } : MemoryLimiterStore).close = none := by
  constructor
  · simp [MemoryLimiterStore.close, h]
  · simp [MemoryLimiterStore.close]

theorem C5_close_not_idempotent_witness :
    (newMemoryLimiterStore 60).close =
      some { newMemoryLimiterStore 60 with doneClosed := true } ∧
    ({ newMemoryLimiterStore 60 with doneClosed := true } : MemoryLimiterStore).close =
      none :=
  C5_close_not_idempotent (newMemoryLimiterStore 60) (by decide)

/-- C4 counterexample: the store already holds, for key "user:u", a bucket
with rate 1, capacity 2 and 2 accumulated tokens while the dynamic resolver
returns (100, 200); after the admission fetch the bucket still has rate 1 and
capacity 2, so it was not mutated via SetRate/SetCapacity. -/
theorem C4_counterexample :
    (getRateLimiter dcfg0 st4 "user:u" 5).1 = 0 ∧
    ((getRateLimiter dcfg0 st4 "user:u" 5).2.heap.getD 0 dfltLimiter).limit = 1 ∧
    ((getRateLimiter dcfg0 st4 "user:u" 5).2.heap.getD 0 dfltLimiter).burst = 2 ∧
    dcfg0.resolver "user:u" = (100, 200) := by
  refine ⟨by decide, by decide, by decide, rfl⟩

/-- C4 (amended): when an admission check finds an already-existing bucket,
the dynamic resolver is not consulted at all and the bucket is left unchanged
(its rate, capacity and accumulated tokens are untouched); resolved limits
only apply when a bucket is first created. -/
theorem C4_existing_bucket_unchanged (cfg : DynamicRateLimiterCfg) (st : RLState)
    (key : String) (now : ℚ) (id : Nat)
    (h : alookup st.store.limiters key = some id) :
    (getRateLimiter cfg st key now).1 = id ∧
    (getRateLimiter cfg st key now).2.heap = st.heap ∧
    (∀ f : String → Int × Int,
      getRateLimiter { cfg with resolver := f } st key now =
        getRateLimiter cfg st key now) := by
  refine ⟨?_, ?_, ?_⟩ <;>
    simp [getRateLimiter, MemoryLimiterStore.get, h]

theorem C4_existing_bucket_unchanged_witness :
    (getRateLimiter dcfg0 st4 "user:u" 7).1 = 0 ∧
    (getRateLimiter dcfg0 st4 "user:u" 7).2.heap = st4.heap ∧
    (∀ f : String → Int × Int,
      getRateLimiter { dcfg0 with resolver := f } st4 "user:u" 7 =
        getRateLimiter dcfg0 st4 "user:u" 7) :=
  C4_existing_bucket_unchanged dcfg0 st4 "user:u" 7 0 (by decide)

/-- C9: when the configured skip predicate returns true, both the immediate
middleware and the wait middleware (and the dynamic one) invoke next with no
status, no headers and no body, and leave the whole state (store and heap)
unchanged: no key is derived and no bucket is created or consulted. -/
theorem C9_skip_bypasses (cfg : RateLimiterCfg) (dcfg : DynamicRateLimiterCfg)
    (timeout : ℚ) (st : RLState) (c : GinContext)
    (now : ℚ) (f g : GinContext → Bool)
    (hf : cfg.skipFunc = some f) (hc : f c = true)
    (hg : dcfg.skipFunc = some g) (hgc : g c = true) :
    middlewareStep cfg st c now = (nextOutcome, st) ∧
    rateLimitWithWaitStep cfg timeout st c now = (nextOutcome, st) ∧
    dynamicMiddlewareStep dcfg st c now = (nextOutcome, st) := by
  refine ⟨?_, ?_, ?_⟩
  · simp [middlewareStep, hf, hc]
  · simp [rateLimitWithWaitStep, hf, hc]
  · simp [dynamicMiddlewareStep, hg, hgc]

theorem reserveN_one_not_ok_of_burst_nonpos (lim : Limiter) (t m : ℚ)
    (hb : lim.burst ≤ 0) :
    (lim.reserveN t 1 m).1.ok = false ∧ (lim.reserveN t 1 m).2 = lim := by
  have h1 : ¬ (1 : Int) ≤ lim.burst := by omega
  unfold Limiter.reserveN
  by_cases h0 : lim.limit = 0
  · rw [if_pos h0, if_neg h1]
    exact ⟨rfl, rfl⟩
  · rw [if_neg h0]
    simp only
    rw [if_neg (fun h => h1 h.1)]
    exact ⟨rfl, rfl⟩

theorem getLimiter_heap_cases (cfg : RateLimiterCfg) (st : RLState) (key : String)
    (now : ℚ) :
    (getLimiter cfg st key now).2.heap = st.heap ∨
    (getLimiter cfg st key now).2.heap =
      st.heap ++ [newLimiter (cfg.rps : ℚ) cfg.burst] := by
  cases h : alookup st.store.limiters key with
  | some id => left; simp [getLimiter, MemoryLimiterStore.get, h]
  | none => right; simp [getLimiter, MemoryLimiterStore.get, MemoryLimiterStore.set, h]

theorem middlewareCore_denies_of_burst_nonpos (cfg : RateLimiterCfg) (st : RLState)
    (c : GinContext) (now : ℚ) (hb : cfg.burst ≤ 0)
    (hinv : ∀ l ∈ st.heap, l.burst ≤ 0) :
    (middlewareCore cfg st c now).1 = denyMin ∧
    (∀ l ∈ (middlewareCore cfg st c now).2.heap, l.burst ≤ 0) := by
  rcases hq : getLimiter cfg st ((cfg.keyFunc.getD defaultKeyFunc) c) now with ⟨id, st1⟩
  have hinv1 : ∀ l ∈ st1.heap, l.burst ≤ 0 := by
    have hcases := getLimiter_heap_cases cfg st ((cfg.keyFunc.getD defaultKeyFunc) c) now
    rw [hq] at hcases
    rcases hcases with h | h <;> rw [h]
    · exact hinv
    · intro l hl
      rcases List.mem_append.mp hl with h1 | h1
      · exact hinv l h1
      · rw [List.mem_singleton.mp h1]
        exact hb
  have hlim : (st1.heap.getD id dfltLimiter).burst ≤ 0 := by
    rcases getD_mem_or_default st1.heap id dfltLimiter with h | h
    · exact hinv1 _ h
    · rw [h]; decide
  obtain ⟨hok0, hst0⟩ :=
    reserveN_one_not_ok_of_burst_nonpos (st1.heap.getD id dfltLimiter) now 0 hlim
  obtain ⟨hokInf, hstInf⟩ :=
    reserveN_one_not_ok_of_burst_nonpos (st1.heap.getD id dfltLimiter) now infDuration hlim
  have hallow : (st1.heap.getD id dfltLimiter).allow now =
      (false, st1.heap.getD id dfltLimiter) := by
    simp only [Limiter.allow, hok0, hst0]
  have hhandle : handleRateLimit cfg (st1.heap.getD id dfltLimiter) now =
      (denyMin, st1.heap.getD id dfltLimiter) := by
    simp only [handleRateLimit, hokInf, hstInf, eq_self_iff_true, if_true, denyMin]
  have hcore : middlewareCore cfg st c now =
      (denyMin, { st1 with heap := st1.heap.set id (st1.heap.getD id dfltLimiter) }) := by
    simp only [middlewareCore, hq, hallow, eq_self_iff_true, if_true, hhandle]
  rw [hcore]
  refine ⟨rfl, ?_⟩
  intro l hl
  rcases List.mem_or_eq_of_mem_set hl with h | h
  · exact hinv1 l h
  · rw [h]; exact hlim

theorem runSeq_denies_of_burst_nonpos (cfg : RateLimiterCfg) (hb : cfg.burst ≤ 0)
    (hskip : cfg.skipFunc = none) :
    ∀ (reqs : List (GinContext × ℚ)) (st : RLState),
      (∀ l ∈ st.heap, l.burst ≤ 0) →
      ∀ o ∈ (runSeq cfg reqs st).1, o = denyMin := by
  intro reqs
  induction reqs with
  | nil => intro st _ o ho; simp [runSeq] at ho
  | cons r rest ih =>
    intro st hinv o ho
    obtain ⟨h1, h2⟩ := middlewareCore_denies_of_burst_nonpos cfg st r.1 r.2 hb hinv
    have hstep : middlewareStep cfg st r.1 r.2 = middlewareCore cfg st r.1 r.2 := by
      unfold middlewareStep
      rw [hskip]
    unfold runSeq at ho
    rw [hstep] at ho
    simp only [List.mem_cons] at ho
    rcases ho with ho | ho
    · rw [ho, h1]
    · exact ih (middlewareCore cfg st r.1 r.2).2 h2 o ho

/-- C1 counterexample: RateLimit(0, 0) denies its very first request: next is
not invoked and the response status is 429, refuting unconditional admission
for rate <= 0 and burst <= 0. -/
theorem C1_counterexample :
    (middlewareStep (newRateLimiter 0 0) initState ctx0 0).1.nextCalled = false ∧
    (middlewareStep (newRateLimiter 0 0) initState ctx0 0).1.status = some 429 := by
  exact ⟨by decide, by decide⟩

/-- C1 (amended): for every limiter configured with rate <= 0 and burst <= 0
(e.g. RateLimit(0, 0)), every request for every key is REJECTED with 429: next
is never invoked and the response carries no headers at all (in particular no
X-RateLimit-* quota headers) and no retry_after field, regardless of request
volume. -/
theorem C1_rate0_burst0_denies_all (rps burst : Int) (hr : rps ≤ 0)
    (hb : burst ≤ 0) (reqs : List (GinContext × ℚ)) (o : MwOutcome)
    (ho : o ∈ (runSeq (newRateLimiter rps burst) reqs initState).1) :
    o.nextCalled = false ∧ o.status = some 429 ∧ o.headers = [] ∧
      o.bodyRetryAfter = none := by
  have h := runSeq_denies_of_burst_nonpos (newRateLimiter rps burst) hb rfl reqs
    initState (by intro l hl; simp [initState] at hl) o ho
  rw [h]
  exact ⟨rfl, rfl, rfl, rfl⟩

theorem C1_rate0_burst0_denies_all_witness :
    ((runSeq (newRateLimiter 0 0) [(ctx0, 0), (ctx0, 1)] initState).1.getD 0
        dfltOutcome).nextCalled = false ∧
    ((runSeq (newRateLimiter 0 0) [(ctx0, 0), (ctx0, 1)] initState).1.getD 0
        dfltOutcome).status = some 429 ∧
    ((runSeq (newRateLimiter 0 0) [(ctx0, 0), (ctx0, 1)] initState).1.getD 0
        dfltOutcome).headers = [] ∧
    ((runSeq (newRateLimiter 0 0) [(ctx0, 0), (ctx0, 1)] initState).1.getD 0
        dfltOutcome).bodyRetryAfter = none :=
  C1_rate0_burst0_denies_all 0 0 (by decide) (by decide) [(ctx0, 0), (ctx0, 1)]
    ((runSeq (newRateLimiter 0 0) [(ctx0, 0), (ctx0, 1)] initState).1.getD 0 dfltOutcome)
    (by decide)

/-- C2 counterexample: with rate 10 and burst 0 the first request is denied
with 429, but the response carries no headers at all (no limit=0, no
remaining=0, no Retry-After: 1) and no retry_after body field, refuting the
claimed quota-header emission. -/
theorem C2_counterexample :
    (middlewareStep (newRateLimiter 10 0) initState ctx0 0).1.status = some 429 ∧
    (middlewareStep (newRateLimiter 10 0) initState ctx0 0).1.headers = [] ∧
    (middlewareStep (newRateLimiter 10 0) initState ctx0 0).1.bodyRetryAfter = none := by
  exact ⟨by decide, by decide, by decide⟩

/-- C2 (amended): with rate 10 and burst 0 every request is denied with 429
through the Reservation-not-OK fallback: the response carries no headers at
all (no quota headers, no Retry-After) and its body is only the error string,
with no retry_after field; the bucket is never able to grant. -/
theorem C2_zero_burst_denies_minimal (reqs : List (GinContext × ℚ)) (o : MwOutcome)
    (ho : o ∈ (runSeq (newRateLimiter 10 0) reqs initState).1) :
    o.nextCalled = false ∧ o.status = some 429 ∧ o.headers = [] ∧
      o.bodyRetryAfter = none ∧ o.bodyError = some "rate limit exceeded" := by
  have h := runSeq_denies_of_burst_nonpos (newRateLimiter 10 0) (by decide) rfl reqs
    initState (by intro l hl; simp [initState] at hl) o ho
  rw [h]
  exact ⟨rfl, rfl, rfl, rfl, rfl⟩

theorem C2_zero_burst_denies_minimal_witness :
    ((runSeq (newRateLimiter 10 0) [(ctx0, 0), (ctx0, 5)] initState).1.getD 1
        dfltOutcome).nextCalled = false ∧
    ((runSeq (newRateLimiter 10 0) [(ctx0, 0), (ctx0, 5)] initState).1.getD 1
        dfltOutcome).status = some 429 ∧
    ((runSeq (newRateLimiter 10 0) [(ctx0, 0), (ctx0, 5)] initState).1.getD 1
        dfltOutcome).headers = [] ∧
    ((runSeq (newRateLimiter 10 0) [(ctx0, 0), (ctx0, 5)] initState).1.getD 1
        dfltOutcome).bodyRetryAfter = none ∧
    ((runSeq (newRateLimiter 10 0) [(ctx0, 0), (ctx0, 5)] initState).1.getD 1
        dfltOutcome).bodyError = some "rate limit exceeded" :=
  C2_zero_burst_denies_minimal [(ctx0, 0), (ctx0, 5)]
    ((runSeq (newRateLimiter 10 0) [(ctx0, 0), (ctx0, 5)] initState).1.getD 1 dfltOutcome)
    (by decide)

theorem waitStep_deny_shape (cfg : RateLimiterCfg) (timeout : ℚ) (st : RLState)
    (c : GinContext) (now : ℚ) :
    (rateLimitWithWaitStep cfg timeout st c now).1 = nextOutcome ∨
    (rateLimitWithWaitStep cfg timeout st c now).1 =
      ⟨false, some 429, [], some "rate limit exceeded", none, some timeout⟩ := by
  unfold rateLimitWithWaitStep rateLimitWithWaitCore
  rcases h : cfg.skipFunc with _ | f
  · simp only [h]
    split
    · right; rfl
    · left; rfl
  · simp only [h]
    split
    · left; rfl
    · split
      · right; rfl
      · left; rfl

/-- C3 counterexample: against the same bucket state (rate 1, burst 1, zero
tokens), an immediate-mode denial answers Retry-After 2 in header and body,
while a wait-mode denial with timeout 0.5 s emits no Retry-After at all and
reports the configured timeout in its body, so the two paths do not produce
the same rounded retry value and the wait value is not computed from the
bucket's previewed delay. -/
theorem C3_counterexample :
    (middlewareStep (newRateLimiter 1 1) st0 ctx0 0).1.nextCalled = false ∧
    (middlewareStep (newRateLimiter 1 1) st0 ctx0 0).1.bodyRetryAfter = some 2 ∧
    (middlewareStep (newRateLimiter 1 1) st0 ctx0 0).1.headers = [("Retry-After", 2)] ∧
    (rateLimitWithWaitStep (newRateLimiter 1 1) (1 / 2) st0 ctx0 0).1.nextCalled = false ∧
    (rateLimitWithWaitStep (newRateLimiter 1 1) (1 / 2) st0 ctx0 0).1.bodyRetryAfter = none ∧
    (rateLimitWithWaitStep (newRateLimiter 1 1) (1 / 2) st0 ctx0 0).1.headers = [] ∧
    (rateLimitWithWaitStep (newRateLimiter 1 1) (1 / 2) st0 ctx0 0).1.bodyTimeout =
      some (1 / 2) := by
  refine ⟨by decide, by decide, by decide, by decide, by decide, by decide, by decide⟩

/-- C3 (amended): a wait-mode denial never carries a Retry-After header or a
retry_after body field; its only numeric feedback is the configured wait
timeout echoed in the body's timeout field, so retry information of the
immediate and wait paths differ and the wait path's number is exactly the
configured timeout, not a previewed delay. -/
theorem C3_wait_denial_reports_timeout (cfg : RateLimiterCfg) (timeout : ℚ)
    (st : RLState) (c : GinContext) (now : ℚ)
    (hdeny : (rateLimitWithWaitStep cfg timeout st c now).1.nextCalled = false) :
    (rateLimitWithWaitStep cfg timeout st c now).1.bodyTimeout = some timeout ∧
    (rateLimitWithWaitStep cfg timeout st c now).1.bodyRetryAfter = none ∧
    (rateLimitWithWaitStep cfg timeout st c now).1.headers = [] ∧
    (rateLimitWithWaitStep cfg timeout st c now).1.status = some 429 := by
  rcases waitStep_deny_shape cfg timeout st c now with h | h
  · rw [h] at hdeny
    simp [nextOutcome] at hdeny
  · rw [h]
    exact ⟨rfl, rfl, rfl, rfl⟩

theorem C3_wait_denial_reports_timeout_witness :
    (rateLimitWithWaitStep (newRateLimiter 1 1) (3 / 4) st0 ctx0 0).1.bodyTimeout =
      some (3 / 4) ∧
    (rateLimitWithWaitStep (newRateLimiter 1 1) (3 / 4) st0 ctx0 0).1.bodyRetryAfter =
      none ∧
    (rateLimitWithWaitStep (newRateLimiter 1 1) (3 / 4) st0 ctx0 0).1.headers = [] ∧
    (rateLimitWithWaitStep (newRateLimiter 1 1) (3 / 4) st0 ctx0 0).1.status =
      some 429 :=
  C3_wait_denial_reports_timeout (newRateLimiter 1 1) (3 / 4) st0 ctx0 0 (by decide)

theorem infDuration_pos : 0 < infDuration := by
  norm_num [infDuration]

theorem delayFrom_nonneg (r : Reservation) (t : ℚ) : 0 ≤ r.delayFrom t := by
  unfold Reservation.delayFrom
  by_cases h1 : r.ok = false
  · rw [if_pos h1]
    exact le_of_lt infDuration_pos
  · rw [if_neg h1]
    by_cases h2 : r.timeToAct - t < 0
    · rw [if_pos h2]
    · rw [if_neg h2]
      linarith [not_lt.mp h2]

/-- C6 counterexample: a bucket with rate 1, burst 1 and zero tokens previews
a delay of exactly 1 second, yet the denial answers Retry-After 2; the claimed
round-up-with-floor-1 rule would answer max 1 (ceil 1) = 1, so a whole-second
delay IS increased. -/
theorem C6_counterexample :
    (handleRateLimit (newRateLimiter 1 1) lim0 0).1.bodyRetryAfter = some 2 ∧
    (handleRateLimit (newRateLimiter 1 1) lim0 0).1.headers = [("Retry-After", 2)] ∧
    previewDelay lim0 0 = 1 ∧
    ¬ (2 : Int) = max 1 ⌈(1 : ℚ)⌉ := by
  refine ⟨by decide, by decide, by decide, by decide⟩

/-- C6 (amended): on every immediate-mode denial whose reservation is OK, the
Retry-After header (when headers are enabled) and the retry_after body field
both equal floor(previewed delay) + 1, which is at least 1; in particular a
delay that is already a whole number of seconds is increased by one second. -/
theorem C6_retry_after_floor_plus_one (cfg : RateLimiterCfg) (lim : Limiter)
    (now : ℚ) (hok : (lim.reserveN now 1 infDuration).1.ok = true) :
    (handleRateLimit cfg lim now).1.bodyRetryAfter =
      some (⌊previewDelay lim now⌋ + 1) ∧
    (handleRateLimit cfg lim now).1.headers =
      (if cfg.headers then [("Retry-After", ⌊previewDelay lim now⌋ + 1)] else []) ∧
    1 ≤ ⌊previewDelay lim now⌋ + 1 := by
  have hnn : 0 ≤ (lim.reserveN now 1 infDuration).1.delayFrom now :=
    delayFrom_nonneg _ _
  have hfl : goTrunc ((lim.reserveN now 1 infDuration).1.delayFrom now) =
      ⌊(lim.reserveN now 1 infDuration).1.delayFrom now⌋ := by
    unfold goTrunc
    rw [if_pos hnn]
  have hfnn : 0 ≤ ⌊(lim.reserveN now 1 infDuration).1.delayFrom now⌋ :=
    Int.floor_nonneg.mpr hnn
  refine ⟨?_, ?_, ?_⟩
  · simp only [handleRateLimit, previewDelay, hok, hfl, Bool.true_eq_false, if_false]
  · simp only [handleRateLimit, previewDelay, hok, hfl, Bool.true_eq_false, if_false]
  · simp only [previewDelay]
    omega

theorem C6_retry_after_floor_plus_one_witness :
    (handleRateLimit (newRateLimiter 1 1) lim0 0).1.bodyRetryAfter =
      some (⌊previewDelay lim0 0⌋ + 1) ∧
    (handleRateLimit (newRateLimiter 1 1) lim0 0).1.headers =
      (if (newRateLimiter 1 1).headers
        then [("Retry-After", ⌊previewDelay lim0 0⌋ + 1)] else []) ∧
    1 ≤ ⌊previewDelay lim0 0⌋ + 1 :=
  C6_retry_after_floor_plus_one (newRateLimiter 1 1) lim0 0 (by decide)

theorem handleRateLimit_nextCalled (cfg : RateLimiterCfg) (lim : Limiter) (now : ℚ) :
    (handleRateLimit cfg lim now).1.nextCalled = false := by
  simp only [handleRateLimit]
  split <;> rfl

theorem middlewareCore_deny_of_allow_false (cfg : RateLimiterCfg) (st : RLState)
    (c : GinContext) (now : ℚ) (id : Nat) (st1 : RLState)
    (hq : getLimiter cfg st ((cfg.keyFunc.getD defaultKeyFunc) c) now = (id, st1))
    (hfalse : ((st1.heap.getD id dfltLimiter).allow now).1 = false) :
    (middlewareCore cfg st c now).1.nextCalled = false := by
  simp only [middlewareCore, hq, hfalse, eq_self_iff_true, if_true]
  exact handleRateLimit_nextCalled cfg _ now

theorem dfltLimiter_allow_false (t : ℚ) : (dfltLimiter.allow t).1 = false := by
  simp [Limiter.allow, Limiter.reserveN, dfltLimiter]

theorem durationFromTokens_pos (limit x : ℚ) (hx : 0 < x) :
    0 < durationFromTokens limit x := by
  unfold durationFromTokens
  by_cases h1 : limit ≤ 0
  · rw [if_pos h1]
    exact infDuration_pos
  · rw [if_neg h1]
    by_cases h2 : x / limit > infDuration
    · rw [if_pos h2]
      exact infDuration_pos
    · rw [if_neg h2]
      exact div_pos hx (not_le.mp h1)

theorem advance_le_burst (lim : Limiter) (t : ℚ) :
    lim.advance t ≤ (lim.burst : ℚ) := by
  unfold Limiter.advance
  exact min_le_right _ _

theorem tokensFromDuration_zero (limit : ℚ) : tokensFromDuration limit 0 = 0 := by
  unfold tokensFromDuration
  by_cases h : limit ≤ 0
  · rw [if_pos h]
  · rw [if_neg h]
    exact zero_mul _

theorem allow_ok_general (lim : Limiter) (now : ℚ) (hl : ¬ lim.limit = 0)
    (hok : (lim.allow now).1 = true) :
    0 ≤ lim.advance now - 1 ∧
    (lim.allow now).2 =
      { lim with tokens := lim.advance now - 1, last := now, lastEvent := now } := by
  have hno : ¬ lim.advance now - 1 < 0 := by
    by_contra h
    have hwpos : 0 < durationFromTokens lim.limit (-(lim.advance now - 1)) :=
      durationFromTokens_pos _ _ (by linarith)
    have hfl : lim.allow now = (false, lim) := by
      simp only [Limiter.allow, Limiter.reserveN, if_neg hl, Int.cast_one, if_pos h]
      rw [if_neg (fun hc => absurd hc.2 (not_le.mpr hwpos))]
    rw [hfl] at hok
    exact absurd hok Bool.false_ne_true
  have hburst : (1 : Int) ≤ lim.burst := by
    by_contra hb
    have hfl : lim.allow now = (false, lim) := by
      simp only [Limiter.allow, Limiter.reserveN, if_neg hl, Int.cast_one]
      rw [if_neg (fun hc => hb hc.1)]
    rw [hfl] at hok
    exact absurd hok Bool.false_ne_true
  have hw0 : (if lim.advance now - 1 < 0 then
      durationFromTokens lim.limit (-(lim.advance now - 1)) else 0) = 0 := if_neg hno
  have hcond : (1 : Int) ≤ lim.burst ∧ (0 : ℚ) ≤ 0 := ⟨hburst, le_refl 0⟩
  have heq : lim.allow now = (true,
      { lim with tokens := lim.advance now - 1, last := now, lastEvent := now }) := by
    simp only [Limiter.allow, Limiter.reserveN, if_neg hl, Int.cast_one, hw0, add_zero]
    rw [if_pos hcond]
  rw [heq]
  exact ⟨not_lt.mp hno, rfl⟩

theorem tokensAt_after_allow (lim : Limiter) (now : ℚ) (hl : ¬ lim.limit = 0)
    (hok : (lim.allow now).1 = true) :
    (lim.allow now).2.tokensAt now = lim.advance now - 1 := by
  obtain ⟨hnn, heq⟩ := allow_ok_general lim now hl hok
  rw [heq]
  unfold Limiter.tokensAt Limiter.advance
  simp only
  rw [if_neg (lt_irrefl now), sub_self, tokensFromDuration_zero, add_zero]
  have hble : lim.advance now - 1 ≤ (lim.burst : ℚ) := by
    have := advance_le_burst lim now
    linarith
  exact min_eq_left hble

theorem getD_set_self {α : Type} (l : List α) (i : Nat) (x d : α)
    (h : i < l.length) : (l.set i x).getD i d = x := by
  induction l generalizing i with
  | nil => simp at h
  | cons a as ih =>
    cases i with
    | zero => rfl
    | succ n =>
      simp only [List.length_cons] at h
      exact ih n (by omega)

theorem setHeaders_eq_spec (cfg : RateLimiterCfg) (lim : Limiter) (now : ℚ)
    (h : 0 ≤ lim.tokensAt now) :
    setHeaders cfg lim now = specQuotaHeaders cfg.rps cfg.burst (lim.tokensAt now) now := by
  have hflr : 0 ≤ ⌊lim.tokensAt now⌋ := Int.floor_nonneg.mpr h
  have htr : goTrunc (lim.tokensAt now) = ⌊lim.tokensAt now⌋ := by
    unfold goTrunc
    rw [if_pos h]
  have hmax : max 0 ⌊lim.tokensAt now⌋ = ⌊lim.tokensAt now⌋ := max_eq_right hflr
  unfold setHeaders specQuotaHeaders
  simp only [htr, hmax]
  by_cases hc : cfg.burst - ⌊lim.tokensAt now⌋ ≤ 0
  · rw [if_pos hc, if_pos (by omega : cfg.burst ≤ ⌊lim.tokensAt now⌋)]
  · rw [if_neg hc, if_neg (by omega : ¬ cfg.burst ≤ ⌊lim.tokensAt now⌋)]

/-- C7: whenever the immediate middleware admits a request and emits quota
headers (headers on, no skip, positive configured rate, every stored bucket
built with the configured rate), the emitted headers are exactly those of the
spec formula: limit is the configured rate, remaining is
max(0, floor(AvailableTokens())) of the key's bucket, and reset is now plus
(capacity - remaining)/rate seconds, or now plus one second when the bucket is
already full. -/
theorem C7_admitted_headers_match_spec (cfg : RateLimiterCfg) (st : RLState)
    (c : GinContext) (now : ℚ) (hskip : cfg.skipFunc = none)
    (hh : cfg.headers = true) (hrps : 0 < cfg.rps)
    (hinv : ∀ l ∈ st.heap, l.limit = (cfg.rps : ℚ))
    (hadm : (middlewareStep cfg st c now).1.nextCalled = true) :
    (middlewareStep cfg st c now).1.headers =
      specQuotaHeaders cfg.rps cfg.burst
        (((middlewareStep cfg st c now).2.heap.getD
            (getLimiter cfg st ((cfg.keyFunc.getD defaultKeyFunc) c) now).1
            dfltLimiter).tokensAt now) now := by
  have hstep : middlewareStep cfg st c now = middlewareCore cfg st c now := by
    unfold middlewareStep
    rw [hskip]
  rcases hq : getLimiter cfg st ((cfg.keyFunc.getD defaultKeyFunc) c) now with ⟨id, st1⟩
  have hinv1 : ∀ l ∈ st1.heap, l.limit = (cfg.rps : ℚ) := by
    have hcases := getLimiter_heap_cases cfg st ((cfg.keyFunc.getD defaultKeyFunc) c) now
    rw [hq] at hcases
    rcases hcases with h | h <;> rw [h]
    · exact hinv
    · intro l hl
      rcases List.mem_append.mp hl with h1 | h1
      · exact hinv l h1
      · rw [List.mem_singleton.mp h1]
        rfl
  have hadm2 : (middlewareCore cfg st c now).1.nextCalled = true := by
    rw [← hstep]
    exact hadm
  have hlimit : ¬ (st1.heap.getD id dfltLimiter).limit = 0 := by
    rcases getD_mem_or_default st1.heap id dfltLimiter with hmem | hdef
    · rw [hinv1 _ hmem]
      intro h0
      rw [Int.cast_eq_zero] at h0
      omega
    · exfalso
      have hfalse : ((st1.heap.getD id dfltLimiter).allow now).1 = false := by
        rw [hdef]
        exact dfltLimiter_allow_false now
      have hden := middlewareCore_deny_of_allow_false cfg st c now id st1 hq hfalse
      rw [hden] at hadm2
      exact Bool.false_ne_true hadm2
  have hallowok : ((st1.heap.getD id dfltLimiter).allow now).1 = true := by
    cases h : ((st1.heap.getD id dfltLimiter).allow now).1
    · have hden := middlewareCore_deny_of_allow_false cfg st c now id st1 hq h
      rw [hden] at hadm2
      exact absurd hadm2 Bool.false_ne_true
    · rfl
  obtain ⟨htok_nn, _⟩ := allow_ok_general _ now hlimit hallowok
  have htok : ((st1.heap.getD id dfltLimiter).allow now).2.tokensAt now =
      (st1.heap.getD id dfltLimiter).advance now - 1 :=
    tokensAt_after_allow _ now hlimit hallowok
  have havail : 0 ≤ ((st1.heap.getD id dfltLimiter).allow now).2.tokensAt now := by
    rw [htok]
    exact htok_nn
  have hcore : middlewareCore cfg st c now =
      ({ nextOutcome with
          headers := setHeaders cfg ((st1.heap.getD id dfltLimiter).allow now).2 now },
        { st1 with
          heap := st1.heap.set id ((st1.heap.getD id dfltLimiter).allow now).2 }) := by
    simp only [middlewareCore, hq, hallowok, Bool.true_eq_false, if_false, hh, if_true]
  have hlt : id < st1.heap.length := by
    by_contra hge
    have hd : st1.heap.getD id dfltLimiter = dfltLimiter :=
      getD_of_length_le _ _ _ (le_of_not_lt hge)
    rw [hd] at hlimit
    exact hlimit rfl
  have hread : (st1.heap.set id ((st1.heap.getD id dfltLimiter).allow now).2).getD id
      dfltLimiter = ((st1.heap.getD id dfltLimiter).allow now).2 :=
    getD_set_self _ _ _ _ hlt
  rw [hstep, hcore]
  simp only [hread]
  exact setHeaders_eq_spec cfg _ now havail

theorem C7_admitted_headers_match_spec_witness :
    (middlewareStep (newRateLimiter 2 1) initState ctx0 1).1.headers =
      specQuotaHeaders (newRateLimiter 2 1).rps (newRateLimiter 2 1).burst
        (((middlewareStep (newRateLimiter 2 1) initState ctx0 1).2.heap.getD
            (getLimiter (newRateLimiter 2 1) initState
              (((newRateLimiter 2 1).keyFunc.getD defaultKeyFunc) ctx0) 1).1
            dfltLimiter).tokensAt 1) 1 :=
  C7_admitted_headers_match_spec (newRateLimiter 2 1) initState ctx0 1 rfl rfl
    (by decide) (by intro l hl; simp [initState] at hl) (by decide)

theorem alookup_filter_keyfun {α : Type} (l : List (String × α))
    (pred : String × α → Bool) (keep : String → Bool)
    (hp : ∀ p, pred p = keep p.1) (k : String) :
    alookup (l.filter pred) k = if keep k then alookup l k else none := by
  induction l with
  | nil => simp [alookup_nil]
  | cons p tl ih =>
    rw [List.filter_cons, hp p]
    by_cases he : p.1 = k
    · by_cases hkeep : keep p.1 = true
      · have hkk : keep k = true := by rw [← he]; exact hkeep
        simp [hkeep, alookup_cons, he, hkk]
      · have hkk : ¬ keep k = true := by rw [← he]; exact hkeep
        simp [hkeep, hkk, ih]
    · by_cases hkeep : keep p.1 = true
      · simp [hkeep, alookup_cons, he, ih]
      · simp [hkeep, alookup_cons, he, ih]

theorem alookup_filter_none {α : Type} (l : List (String × α))
    (pred : String × α → Bool) (k : String) (h : alookup l k = none) :
    alookup (l.filter pred) k = none := by
  induction l with
  | nil => simp [alookup_nil]
  | cons p tl ih =>
    rw [alookup_cons] at h
    by_cases he : p.1 = k
    · simp [he] at h
    · have h2 : alookup tl k = none := by simpa [he] using h
      rw [List.filter_cons]
      by_cases hpp : pred p = true
      · simp [hpp, alookup_cons, he, ih h2]
      · simp [hpp, ih h2]

theorem wfA_cons {α : Type} (p : String × α) (tl : List (String × α))
    (h : wfA (p :: tl)) : p.1 ∉ tl.map Prod.fst ∧ wfA tl := by
  unfold wfA at *
  rw [List.map_cons, List.nodup_cons] at h
  exact h

theorem alookup_eq_none_of_not_mem {α : Type} (l : List (String × α)) (k : String)
    (h : k ∉ l.map Prod.fst) : alookup l k = none := by
  induction l with
  | nil => rfl
  | cons p tl ih =>
    rw [alookup_cons]
    have h1 : ¬ p.1 = k := fun he => h (by simp [← he])
    have h2 : k ∉ tl.map Prod.fst := fun hm => h (by simp [hm])
    simp [h1, ih h2]

theorem alookup_filter_wf {α : Type} (l : List (String × α))
    (pred : String × α → Bool) (k : String) (v : α)
    (hwf : wfA l) (h : alookup l k = some v) :
    alookup (l.filter pred) k = if pred (k, v) = true then some v else none := by
  induction l with
  | nil => simp [alookup_nil] at h
  | cons p tl ih =>
    obtain ⟨hnm, hwf2⟩ := wfA_cons p tl hwf
    rw [alookup_cons] at h
    rw [List.filter_cons]
    by_cases he : p.1 = k
    · have hv : p.2 = v := by
        have := h
        simp [he] at this
        exact this
      have hnone : alookup tl k = none :=
        alookup_eq_none_of_not_mem tl k (he ▸ hnm)
      have hfn : alookup (tl.filter pred) k = none :=
        alookup_filter_none tl pred k hnone
      have hpv : pred p = pred (k, v) := by
        have hpe : p = (k, v) := Prod.ext he hv
        rw [hpe]
      by_cases hpp : pred p = true
      · have hkv : pred (k, v) = true := by rw [← hpv]; exact hpp
        rw [if_pos hpp, if_pos hkv, alookup_cons]
        simp [he, hv]
      · have hkv : ¬ pred (k, v) = true := by rw [← hpv]; exact hpp
        rw [if_neg hpp, if_neg hkv]
        exact hfn
    · have h2 : alookup tl k = some v := by simpa [he] using h
      by_cases hpp : pred p = true
      · rw [if_pos hpp, alookup_cons]
        simp [he, ih hwf2 h2]
      · rw [if_neg hpp]
        exact ih hwf2 h2

/-- C8: a reclamation pass at tick time now deletes exactly the entries whose
last access is more than maxIdle ago (both the limiter and the last-access
record), keeps every other entry's lookups unchanged, and Get on a hit
refreshes the key's last access to the current time, so a key accessed within
the threshold survives the next pass. -/
theorem C8_cleanup_exact (s : MemoryLimiterStore) (now t0 now2 : ℚ) (k : String)
    (la : ℚ) (hwf : wfA s.lastAccess) (hla : alookup s.lastAccess k = some la) :
    (now - la > s.maxIdle →
      alookup (s.cleanupPass now).limiters k = none ∧
      alookup (s.cleanupPass now).lastAccess k = none) ∧
    (¬ now - la > s.maxIdle →
      alookup (s.cleanupPass now).limiters k = alookup s.limiters k ∧
      alookup (s.cleanupPass now).lastAccess k = some la) ∧
    ((alookup s.limiters k).isSome = true →
      alookup ((s.get k t0).2).lastAccess k = some t0) ∧
    ((alookup s.limiters k).isSome = true → ¬ now2 - t0 > s.maxIdle →
      alookup (((s.get k t0).2).cleanupPass now2).limiters k =
        alookup s.limiters k) := by
  have hlim : ∀ t : ℚ,
      alookup (s.cleanupPass t).limiters k =
        if (match alookup s.lastAccess k with
            | some la2 => !decide (t - la2 > s.maxIdle)
            | none => true) then alookup s.limiters k else none := by
    intro t
    exact alookup_filter_keyfun s.limiters _
      (fun key => match alookup s.lastAccess key with
        | some la2 => !decide (t - la2 > s.maxIdle)
        | none => true)
      (fun p => rfl) k
  have hacc : ∀ t : ℚ,
      alookup (s.cleanupPass t).lastAccess k =
        if (!decide (t - la > s.maxIdle)) = true then some la else none := by
    intro t
    exact alookup_filter_wf s.lastAccess _ k la hwf hla
  refine ⟨?_, ?_, ?_, ?_⟩
  · intro hstale
    have hd : decide (now - la > s.maxIdle) = true := decide_eq_true hstale
    constructor
    · rw [hlim now, hla]
      simp [hd]
    · rw [hacc now]
      simp [hd]
  · intro hfresh
    have hd : decide (now - la > s.maxIdle) = false := decide_eq_false hfresh
    constructor
    · rw [hlim now, hla]
      simp [hd]
    · rw [hacc now]
      simp [hd]
  · intro hsome
    obtain ⟨id, hid⟩ := Option.isSome_iff_exists.mp hsome
    simp only [MemoryLimiterStore.get, hid]
    exact alookup_aset_self s.lastAccess k t0
  · intro hsome hfresh
    obtain ⟨id, hid⟩ := Option.isSome_iff_exists.mp hsome
    have hget : (s.get k t0).2 = { s with lastAccess := aset s.lastAccess k t0 } := by
      simp only [MemoryLimiterStore.get, hid]
    rw [hget]
    have hkeep := alookup_filter_keyfun s.limiters
      (fun p => match alookup (aset s.lastAccess k t0) p.1 with
        | some la2 => !decide (now2 - la2 > s.maxIdle)
        | none => true)
      (fun key => match alookup (aset s.lastAccess k t0) key with
        | some la2 => !decide (now2 - la2 > s.maxIdle)
        | none => true)
      (fun p => rfl) k
    have hd : decide (now2 - t0 > s.maxIdle) = false := decide_eq_false hfresh
    unfold MemoryLimiterStore.cleanupPass
    simp only
    rw [hkeep, alookup_aset_self]
    simp [hd]

theorem C8_cleanup_exact_witness :
    (alookup (stW.cleanupPass 1000).limiters "k" = none ∧
      alookup (stW.cleanupPass 1000).lastAccess "k" = none) ∧
    (alookup (stW.cleanupPass 100).limiters "k" = alookup stW.limiters "k" ∧
      alookup (stW.cleanupPass 100).lastAccess "k" = some 0) ∧
    alookup ((stW.get "k" 5).2).lastAccess "k" = some 5 ∧
    alookup (((stW.get "k" 5).2).cleanupPass 6).limiters "k" =
      alookup stW.limiters "k" :=
  ⟨(C8_cleanup_exact stW 1000 5 6 "k" 0 (by unfold wfA; decide) (by decide)).1 (by decide),
    (C8_cleanup_exact stW 100 5 6 "k" 0 (by unfold wfA; decide) (by decide)).2.1 (by decide),
    (C8_cleanup_exact stW 1000 5 6 "k" 0 (by unfold wfA; decide) (by decide)).2.2.1 (by decide),
    (C8_cleanup_exact stW 1000 5 6 "k" 0 (by unfold wfA; decide) (by decide)).2.2.2 (by decide)
      (by decide)⟩

theorem C9_skip_bypasses_witness :
    middlewareStep skipAllCfg st0 ctx0 3 = (nextOutcome, st0) ∧
    rateLimitWithWaitStep skipAllCfg 2 st0 ctx0 3 = (nextOutcome, st0) ∧
    dynamicMiddlewareStep dynSkipCfg st0 ctx0 3 = (nextOutcome, st0) :=
  C9_skip_bypasses skipAllCfg dynSkipCfg 2 st0 ctx0 3 (fun _ => true) (fun _ => true)
    rfl rfl rfl rfl

end Ginx
